import Mathlib

/-!
Shallow embedding of `torch::utils::Future<T>` from
`src/torch/csrc/utils/future.h`, and proofs about its completion protocol.

The future is a single-assignment cell. Its state is the tuple of fields
of the C++ class (`completed_`, `callbacks_`, `value_`, `error_`, `rf_`);
callbacks are modelled by identifiers of an arbitrary type `C`, and every
externally observable action an operation performs (invoking a callback
with `(value, error)`, signalling the attached RecordFunction's `end()`,
broadcasting on the condition variable) is recorded as an `Event` in the
order the code performs it. Fallible operations (those guarded by
`TORCH_CHECK`) return `Except`; `wait`/`waitNoThrow` block until
completion, modelled by returning `none` while the cell is incomplete.
-/

namespace TorchFuture

/-- `FutureError` of future.h: an exception carrying a message string;
`what()` returns the message. -/
structure FutureError where
  errorMsg : String
  deriving Repr, DecidableEq

/-- `FutureError::what`. -/
def FutureError.what (e : FutureError) : String := e.errorMsg

/-- Kind of fatal failure raised by a failed `TORCH_CHECK` precondition:
completing an already-completed cell. -/
inductive ErrorKind where
  | DoubleComplete
  deriving Repr, DecidableEq

/-- Observable side effects of the future's operations: a callback
invocation with the current `(value, error)` pair, the attached
RecordFunction's `end()` signal, and the condition-variable broadcast
(`finished_cv_.notify_all`). -/
inductive Event (T C : Type) where
  | invoke (cb : C) (value : T) (error : Option FutureError)
  | rfEnd
  | notifyAll
  deriving Repr, DecidableEq

/-- State of `torch::utils::Future<T>`. `rf_ = true` models a non-null
attached `RecordFunction` shared pointer. -/
structure Future (T C : Type) where
  completed_ : Bool
  callbacks_ : List C
  value_ : T
  error_ : Option FutureError
  rf_ : Bool
  deriving Repr, DecidableEq

variable {T C : Type}

/-- `Future() = default`: incomplete, default-initialized value slot, no
error, no callbacks, no RecordFunction. -/
def Future.mk0 [Inhabited T] : Future T C :=
  ⟨false, [], default, none, false⟩

/-- `Future(T value)`: pre-completed with the value, `rf_(nullptr)`. -/
def Future.mkValue (v : T) : Future T C :=
  ⟨true, [], v, none, false⟩

/-- `completed()`: reads the atomic flag. -/
def Future.completed (f : Future T C) : Bool := f.completed_

/-- `hasError()`. -/
def Future.hasError (f : Future T C) : Bool := f.error_.isSome

/-- `error()`. -/
def Future.error (f : Future T C) : Option FutureError := f.error_

/-- `wait()`: blocks until `completed_` (modelled by `none` while the cell
is incomplete); then throws the stored error if present, otherwise returns
the stored value. -/
def Future.wait (f : Future T C) : Option (Except FutureError T) :=
  if f.completed then
    some (match f.error_ with
      | some e => .error e
      | none => .ok f.value_)
  else none

/-- `waitNoThrow()`: blocks until `completed_`, then returns the value slot
unconditionally, even when an error is present. -/
def Future.waitNoThrow (f : Future T C) : Option T :=
  if f.completed then some f.value_ else none

/-- `moveValue()`: no precondition check; returns the value slot by move.
The C++ move leaves the slot in a valid but unspecified state; the model
tracks only that every other field is untouched. -/
def Future.moveValue (f : Future T C) : T × Future T C :=
  (f.value_, f)

/-- `markCompleted(value)`: `TORCH_CHECK(!completed())`, then store the
value, set `completed_`, drain `callbacks_` to a local vector, unlock,
signal `rf_->end()` if attached, invoke the drained callbacks in order
with `(value_, error_)`, and broadcast. -/
def Future.markCompleted (f : Future T C) (v : T) :
    Except ErrorKind (Future T C × List (Event T C)) :=
  if f.completed then .error .DoubleComplete
  else
    .ok ({ f with value_ := v, completed_ := true, callbacks_ := [] },
      (if f.rf_ then [Event.rfEnd] else []) ++
        f.callbacks_.map (fun cb => Event.invoke cb v f.error_) ++
        [Event.notifyAll])

/-- `setError(errorMsg)`: `TORCH_CHECK(!completed())`, then store the
error, set `completed_`, drain `callbacks_`, unlock, invoke the drained
callbacks in order with `(value_, error_)`, and broadcast. No
RecordFunction signal on this path. -/
def Future.setError (f : Future T C) (errorMsg : String) :
    Except ErrorKind (Future T C × List (Event T C)) :=
  if f.completed then .error .DoubleComplete
  else
    .ok ({ f with
            error_ := some ⟨errorMsg⟩
            completed_ := true
            callbacks_ := [] },
      f.callbacks_.map (fun cb => Event.invoke cb f.value_ (some ⟨errorMsg⟩))
        ++ [Event.notifyAll])

/-- `addCallback(callback)`: if already completed, invoke the callback in
place with the current `(value_, error_)` and do not store it; otherwise
append it to `callbacks_`. -/
def Future.addCallback (f : Future T C) (cb : C) :
    Future T C × List (Event T C) :=
  if f.completed then (f, [Event.invoke cb f.value_ f.error_])
  else ({ f with callbacks_ := f.callbacks_ ++ [cb] }, [])

/-- `attachRecordFunction(rf)`: store the shared pointer. -/
def Future.attachRecordFunction (f : Future T C) : Future T C :=
  { f with rf_ := true }

/-- The mutating interface operations, for stating state-machine
invariants over arbitrary call sequences. -/
inductive Op (T C : Type) where
  | markCompleted (v : T)
  | setError (errorMsg : String)
  | addCallback (cb : C)
  | attachRecordFunction

/-- Run one operation. A failed `TORCH_CHECK` throws before any mutation,
so the state is unchanged and no event is emitted. -/
def Future.applyOp (f : Future T C) : Op T C → Future T C × List (Event T C)
  | .markCompleted v =>
      match f.markCompleted v with
      | .ok r => r
      | .error _ => (f, [])
  | .setError msg =>
      match f.setError msg with
      | .ok r => r
      | .error _ => (f, [])
  | .addCallback cb => f.addCallback cb
  | .attachRecordFunction => (f.attachRecordFunction, [])

/-- Run a sequence of operations, discarding events. -/
def Future.applyOps (f : Future T C) (ops : List (Op T C)) : Future T C :=
  ops.foldl (fun g op => (g.applyOp op).1) f

/-- The callback invocations of a trace, in invocation order, each with
the `(value, error)` arguments it was invoked with. -/
def invocations : List (Event T C) → List (C × T × Option FutureError)
  | [] => []
  | Event.invoke cb v e :: rest => (cb, v, e) :: invocations rest
  | Event.rfEnd :: rest => invocations rest
  | Event.notifyAll :: rest => invocations rest

/-- How many times a trace signals the RecordFunction's `end()`. -/
def countRfEnd : List (Event T C) → Nat
  | [] => 0
  | Event.rfEnd :: rest => countRfEnd rest + 1
  | Event.invoke _ _ _ :: rest => countRfEnd rest
  | Event.notifyAll :: rest => countRfEnd rest

/-- The event trace of a fallible completion call (empty if it failed). -/
def eventsOf (r : Except ErrorKind (Future T C × List (Event T C))) :
    List (Event T C) :=
  match r with
  | .ok (_, evs) => evs
  | .error _ => []

/-- Register callbacks one after another via `addCallback`. -/
def registerAll (f : Future T C) (cbs : List C) : Future T C :=
  cbs.foldl (fun g cb => (g.addCallback cb).1) f

/-! ### Helper lemmas -/

lemma invocations_append (a b : List (Event T C)) :
    invocations (a ++ b) = invocations a ++ invocations b := by
  induction a with
  | nil => rfl
  | cons e rest ih => cases e <;> simp [invocations, ih]

lemma invocations_map (cbs : List C) (v : T) (e : Option FutureError) :
    invocations (cbs.map fun cb => Event.invoke cb v e)
      = cbs.map fun cb => (cb, v, e) := by
  induction cbs with
  | nil => rfl
  | cons cb rest ih => simp [invocations, ih]

lemma countRfEnd_append (a b : List (Event T C)) :
    countRfEnd (a ++ b) = countRfEnd a + countRfEnd b := by
  induction a with
  | nil => simp [countRfEnd]
  | cons e rest ih =>
      cases e with
      | invoke cb v err => simp [countRfEnd, ih]
      | rfEnd => simp [countRfEnd, ih]; omega
      | notifyAll => simp [countRfEnd, ih]

lemma countRfEnd_map (cbs : List C) (v : T) (e : Option FutureError) :
    countRfEnd (cbs.map fun cb => Event.invoke cb v e) = 0 := by
  induction cbs with
  | nil => rfl
  | cons cb rest ih => simp [countRfEnd, ih]

/-- Registering callbacks on an incomplete future appends them in
registration order and changes nothing else. -/
lemma registerAll_incomplete (f : Future T C) (cbs : List C)
    (h : f.completed = false) :
    registerAll f cbs = { f with callbacks_ := f.callbacks_ ++ cbs } := by
  induction cbs generalizing f with
  | nil =>
      simp only [registerAll, List.foldl_nil, List.append_nil]
  | cons cb rest ih =>
      have hstep : (f.addCallback cb).1
          = { f with callbacks_ := f.callbacks_ ++ [cb] } := by
        simp [Future.addCallback, h]
      have hstep2 :
          ({ f with callbacks_ := f.callbacks_ ++ [cb] } : Future T C).completed
            = false := h
      calc registerAll f (cb :: rest)
          = registerAll { f with callbacks_ := f.callbacks_ ++ [cb] } rest := by
            simp only [registerAll, List.foldl_cons, hstep]
        _ = { f with callbacks_ := (f.callbacks_ ++ [cb]) ++ rest } :=
            ih _ hstep2
        _ = { f with callbacks_ := f.callbacks_ ++ (cb :: rest) } := by
            simp

/-! ### Claim theorems -/

/-- C8: a future pre-completed with value `v` satisfies `completed() = true`,
`hasError() = false`, `wait` returns `v` without raising, and `addCallback`
dispatches the callback synchronously with `(v, no error)` without storing
it. -/
theorem mkValue_spec (v : T) (cb : C) :
    (Future.mkValue v : Future T C).completed = true ∧
    (Future.mkValue v : Future T C).hasError = false ∧
    (Future.mkValue v : Future T C).wait = some (.ok v) ∧
    (Future.mkValue v : Future T C).addCallback cb
      = (Future.mkValue v, [Event.invoke cb v none]) :=
  ⟨rfl, rfl, rfl, rfl⟩

/-- C4: on an already-completed future, both `markCompleted` and `setError`
fail with the DoubleComplete fatal error. -/
theorem double_complete (f : Future T C) (v : T) (msg : String)
    (h : f.completed = true) :
    f.markCompleted v = .error .DoubleComplete ∧
    f.setError msg = .error .DoubleComplete := by
  constructor <;> simp [Future.markCompleted, Future.setError, h]

/-- Witness for `double_complete` at a concrete pre-completed future. -/
theorem double_complete_witness :
    (Future.mkValue 7 : Future Nat Nat).markCompleted 8
        = .error .DoubleComplete ∧
    (Future.mkValue 7 : Future Nat Nat).setError "x"
        = .error .DoubleComplete :=
  double_complete (Future.mkValue 7) 8 "x" rfl

/-- C3: `addCallback` on a completed future invokes the callback exactly
once, synchronously (the invocation event is produced by the call itself),
with the current `(value, error)`, and does not append it to the queue or
change any state; on an incomplete future it appends the callback to the
queue and invokes nothing. -/
theorem addCallback_spec (f : Future T C) (cb : C) :
    (f.completed = true →
      f.addCallback cb = (f, [Event.invoke cb f.value_ f.error_])) ∧
    (f.completed = false →
      f.addCallback cb
        = ({ f with callbacks_ := f.callbacks_ ++ [cb] }, [])) := by
  constructor <;> intro h <;> simp [Future.addCallback, h]

/-- Witness for `addCallback_spec` on a completed future. -/
theorem addCallback_spec_witness :
    (Future.mkValue 5 : Future Nat Nat).addCallback 9
      = (Future.mkValue 5, [Event.invoke 9 5 none]) :=
  (addCallback_spec (Future.mkValue 5) 9).1 rfl

/-- C10: `moveValue` checks no precondition: in every state — incomplete,
completed with a value, or completed with an error — it returns the current
contents of the value slot without raising, and leaves the completion flag,
the error, and the callbacks queue unmodified. -/
theorem moveValue_spec (f : Future T C) :
    f.moveValue.1 = f.value_ ∧
    f.moveValue.2.completed_ = f.completed_ ∧
    f.moveValue.2.error_ = f.error_ ∧
    f.moveValue.2.callbacks_ = f.callbacks_ :=
  ⟨rfl, rfl, rfl, rfl⟩

/-- C1: completing a cell via `setError msg` makes `wait` raise the error
descriptor carrying exactly `msg` and makes `error().what` equal `msg`;
completing a never-errored cell via `markCompleted v` makes `wait` return
the stored value `v` without raising. -/
theorem wait_after_completion (f g : Future T C) (msg : String) (v : T)
    (hf : f.completed = false) (hg : g.completed = false)
    (hgerr : g.error_ = none) :
    Except.map (fun r => (r.1.wait, r.1.error.map FutureError.what))
        (f.setError msg) = .ok (some (.error ⟨msg⟩), some msg) ∧
    Except.map (fun r => r.1.wait) (g.markCompleted v)
      = .ok (some (.ok v)) := by
  have hf' : f.completed_ = false := hf
  have hg' : g.completed_ = false := hg
  constructor
  · simp [Future.setError, Future.completed, hf', Future.wait, Future.error,
      FutureError.what, Except.map]
  · simp [Future.markCompleted, Future.completed, hg', Future.wait,
      Future.error, hgerr, Except.map]

/-- Witness for `wait_after_completion` at concrete cells. -/
theorem wait_after_completion_witness :
    Except.map (fun r => (r.1.wait, r.1.error.map FutureError.what))
        ((Future.mk0 : Future Nat Nat).setError "boom")
      = .ok (some (.error ⟨"boom"⟩), some "boom") ∧
    Except.map (fun r => r.1.wait)
        ((Future.mk0 : Future Nat Nat).markCompleted 42)
      = .ok (some (.ok 42)) :=
  wait_after_completion Future.mk0 Future.mk0 "boom" 42 rfl rfl rfl

/-- C2: starting from an incomplete cell with an empty queue, registering
callbacks `cbs` and then completing (by `markCompleted` or by `setError`)
invokes exactly the registered callbacks, each exactly once, in
registration order, each with the completed cell's current
`(value, error)` pair — which the statement also pins down: `(v, error_)`
after `markCompleted v`, `(value_, error msg)` after `setError msg` — and
leaves the callbacks queue empty. -/
theorem callbacks_drained_in_order (f : Future T C) (cbs : List C) (v : T)
    (msg : String) (hf : f.completed = false) (h0 : f.callbacks_ = []) :
    Except.map (fun r => (invocations r.2, r.1.callbacks_, r.1.value_,
          r.1.error_))
        ((registerAll f cbs).markCompleted v)
      = .ok (cbs.map (fun cb => (cb, v, f.error_)), [], v, f.error_) ∧
    Except.map (fun r => (invocations r.2, r.1.callbacks_, r.1.value_,
          r.1.error_))
        ((registerAll f cbs).setError msg)
      = .ok (cbs.map (fun cb => (cb, f.value_, some ⟨msg⟩)), [],
          f.value_, some ⟨msg⟩) := by
  have hf' : f.completed_ = false := hf
  rw [registerAll_incomplete f cbs hf, h0]
  constructor
  · by_cases hrf : f.rf_ <;>
      simp [Future.markCompleted, Future.completed, hf', hrf, Except.map,
        invocations_append, invocations_map, invocations]
  · simp [Future.setError, Future.completed, hf', Except.map,
      invocations_append, invocations_map, invocations]

/-- Witness for `callbacks_drained_in_order` with three callbacks. -/
theorem callbacks_drained_in_order_witness :
    Except.map (fun r => (invocations r.2, r.1.callbacks_, r.1.value_,
          r.1.error_))
        ((registerAll (Future.mk0 : Future Nat Nat) [1, 2, 3]).markCompleted 7)
      = .ok ([(1, 7, none), (2, 7, none), (3, 7, none)], [], 7, none) ∧
    Except.map (fun r => (invocations r.2, r.1.callbacks_, r.1.value_,
          r.1.error_))
        ((registerAll (Future.mk0 : Future Nat Nat) [1, 2, 3]).setError "m")
      = .ok ([(1, 0, some ⟨"m"⟩), (2, 0, some ⟨"m"⟩), (3, 0, some ⟨"m"⟩)], [],
          0, some ⟨"m"⟩) :=
  callbacks_drained_in_order Future.mk0 [1, 2, 3] 7 "m" rfl rfl

/-- One interface operation never resets the completion flag. -/
lemma applyOp_mono (f : Future T C) (op : Op T C) (h : f.completed = true) :
    (f.applyOp op).1.completed = true := by
  cases op with
  | markCompleted v => simp [Future.applyOp, Future.markCompleted, h]
  | setError msg => simp [Future.applyOp, Future.setError, h]
  | addCallback cb => simp [Future.applyOp, Future.addCallback, h]
  | attachRecordFunction => exact h

/-- C5: `completed()` is monotone: once it returns true, it returns true
after every further sequence of interface operations; no operation resets
the flag. -/
theorem completed_monotone (f : Future T C) (ops : List (Op T C))
    (h : f.completed = true) :
    (f.applyOps ops).completed = true := by
  induction ops generalizing f with
  | nil => exact h
  | cons op rest ih => exact ih _ (applyOp_mono f op h)

/-- Witness for `completed_monotone` across a concrete operation mix. -/
theorem completed_monotone_witness :
    ((Future.mkValue 4 : Future Nat Nat).applyOps
        [.addCallback 1, .setError "e", .attachRecordFunction,
          .markCompleted 9]).completed = true :=
  completed_monotone (Future.mkValue 4) _ rfl

/-- C6 counterexample: a cell with an attached RecordFunction, completed
via `setError`, completes successfully but signals the handle's `end()`
zero times — refuting the claim that set-error also signals it exactly
once. -/
theorem setError_rf_not_signalled_cex :
    ((Future.mk0 : Future Nat Nat).attachRecordFunction).rf_ = true ∧
    ((Future.mk0 : Future Nat Nat).attachRecordFunction).setError "boom"
      = .ok (⟨true, [], 0, some ⟨"boom"⟩, true⟩, [Event.notifyAll]) ∧
    countRfEnd (eventsOf
        (((Future.mk0 : Future Nat Nat).attachRecordFunction).setError "boom"))
      = 0 :=
  ⟨rfl, rfl, rfl⟩

/-- C6 amended: completion via `markCompleted` signals the attached
profiling handle's end exactly once (and not at all when none is
attached); completion via `setError` never signals it. -/
theorem rf_signal_spec (f : Future T C) (v : T) (msg : String)
    (h : f.completed = false) :
    countRfEnd (eventsOf (f.markCompleted v)) = (if f.rf_ then 1 else 0) ∧
    countRfEnd (eventsOf (f.setError msg)) = 0 := by
  have h' : f.completed_ = false := h
  constructor
  · by_cases hrf : f.rf_ <;>
      simp [Future.markCompleted, Future.completed, h', hrf, eventsOf,
        countRfEnd_append, countRfEnd_map, countRfEnd]
  · simp [Future.setError, Future.completed, h', eventsOf,
      countRfEnd_append, countRfEnd_map, countRfEnd]

/-- Witness for `rf_signal_spec` on a cell with an attached handle. -/
theorem rf_signal_spec_witness :
    countRfEnd (eventsOf
        (((Future.mk0 : Future Nat Nat).attachRecordFunction).markCompleted 3))
      = (if ((Future.mk0 : Future Nat Nat).attachRecordFunction).rf_
          then 1 else 0) ∧
    countRfEnd (eventsOf
        (((Future.mk0 : Future Nat Nat).attachRecordFunction).setError "e"))
      = 0 :=
  rf_signal_spec ((Future.mk0 : Future Nat Nat).attachRecordFunction) 3 "e" rfl

/-- C7: on every completed future, `waitNoThrow` returns the stored value
slot and never raises, even when an error is present; a cell completed only
via `setError` (from the default constructor) holds the
default-initialized value of `T` in that slot. -/
theorem waitNoThrow_spec [Inhabited T] (f : Future T C) (msg : String)
    (h : f.completed = true) :
    f.waitNoThrow = some f.value_ ∧
    Except.map (fun r => r.1.waitNoThrow)
        ((Future.mk0 : Future T C).setError msg)
      = .ok (some (default : T)) := by
  constructor
  · simp [Future.waitNoThrow, h]
  · simp [Future.setError, Future.mk0, Future.completed, Future.waitNoThrow,
      Except.map]

/-- Witness for `waitNoThrow_spec` on an errored cell. -/
theorem waitNoThrow_spec_witness :
    (Future.mkValue 6 : Future Nat Nat).waitNoThrow = some 6 ∧
    Except.map (fun r => r.1.waitNoThrow)
        ((Future.mk0 : Future Nat Nat).setError "boom")
      = .ok (some 0) := by
  have h := waitNoThrow_spec (T := Nat) (C := Nat) (Future.mkValue 6) "boom" rfl
  exact h

/-- C9: on an already-completed future, a failing `markCompleted` or
`setError` is atomic: the state (flag, value, error, callbacks queue) is
unchanged and no event is emitted — no callback invoked, no waiter woken,
no profiling handle signalled — because the `TORCH_CHECK` precedes every
mutation. -/
theorem failed_completion_atomic (f : Future T C) (v : T) (msg : String)
    (h : f.completed = true) :
    f.applyOp (.markCompleted v) = (f, []) ∧
    f.applyOp (.setError msg) = (f, []) := by
  constructor
  · simp [Future.applyOp, Future.markCompleted, h]
  · simp [Future.applyOp, Future.setError, h]

/-- Witness for `failed_completion_atomic` on a pre-completed cell. -/
theorem failed_completion_atomic_witness :
    (Future.mkValue 1 : Future Nat Nat).applyOp (.markCompleted 2)
      = (Future.mkValue 1, []) ∧
    (Future.mkValue 1 : Future Nat Nat).applyOp (.setError "m")
      = (Future.mkValue 1, []) :=
  failed_completion_atomic (Future.mkValue 1) 2 "m" rfl

end TorchFuture
